import Mathlib

/-!
Shallow embedding of `src/generate_pdf.py`, an interactive CSV/JSON → PDF
generator.  Pure data transformations (JSON record extraction, identifier
indexing, filename sanitisation, numeric menu input) are translated into
executable Lean definitions; the interactive entry point is modelled as a
function over an explicit environment (discovered files, loader and renderer
outcomes) and a list of console input lines.
-/

/-- JSON values as produced by Python's `json.load`.  Numbers are restricted
to integers in this model (no claim depends on float-valued fields). -/
inductive Json where
  | null
  | bool (b : Bool)
  | num (n : Int)
  | str (s : String)
  | arr (xs : List Json)
  | obj (fields : List (String × Json))

/-- Association-list lookup, modelling Python `d[k]` / `d.get(k)` on dicts
represented as insertion-ordered key/value lists (keys unique after
`json.load`). -/
def lookupKey {α : Type} (d : List (String × α)) (k : String) : Option α :=
  (d.find? (fun p => p.1 == k)).map (fun p => p.2)

/-- Python truthiness of a parsed-JSON value (`if x:`). -/
def pyTruthy : Json → Bool
  | .null => false
  | .bool b => b
  | .num n => n != 0
  | .str s => !s.isEmpty
  | .arr xs => !xs.isEmpty
  | .obj fs => !fs.isEmpty

/-- Python `repr` of a string: single quotes, switching to double quotes when
the text contains `'` but no `"`.  Modelled for strings without control
characters needing escapes beyond backslash and quote. -/
def pyStrRepr (s : String) : String :=
  if s.data.contains '\'' && !s.data.contains '"' then
    "\"" ++ String.mk (s.data.flatMap (fun c => if c = '\\' then ['\\', '\\'] else [c])) ++ "\""
  else
    "'" ++ String.mk (s.data.flatMap (fun c =>
      if c = '\\' then ['\\', '\\'] else if c = '\'' then ['\\', '\''] else [c])) ++ "'"

mutual
/-- Python `repr` on parsed-JSON values. -/
def pyRepr : Json → String
  | .null => "None"
  | .bool true => "True"
  | .bool false => "False"
  | .num n => toString n
  | .str s => pyStrRepr s
  | .arr xs => "[" ++ pyReprList xs ++ "]"
  | .obj fs => "\x7b" ++ pyReprFields fs ++ "\x7d"

/-- Comma-joined `repr`s of list elements. -/
def pyReprList : List Json → String
  | [] => ""
  | [x] => pyRepr x
  | x :: y :: xs => pyRepr x ++ ", " ++ pyReprList (y :: xs)

/-- Comma-joined `'key': repr(value)` entries of a dict. -/
def pyReprFields : List (String × Json) → String
  | [] => ""
  | [(k, v)] => pyStrRepr k ++ ": " ++ pyRepr v
  | (k, v) :: f :: fs => pyStrRepr k ++ ": " ++ pyRepr v ++ ", " ++ pyReprFields (f :: fs)
end

/-- Python `str()` on parsed-JSON values: identity on strings, `repr`-like
rendering otherwise (`None`, `True`, decimal numbers, containers). -/
def pyStr : Json → String
  | .str s => s
  | j => pyRepr j

/-- The wrapper keys probed by `parse_json`, in source order. -/
def wrapKeys : List String := ["invoices", "data", "records", "items"]

/-- The loop of `parse_json`: first key in `ks` present in `fs` with a
list value (`if key in data and isinstance(data[key], list)`). -/
def findListKey (fs : List (String × Json)) : List String → Option (List Json)
  | [] => none
  | k :: ks =>
    match lookupKey fs k with
    | some (.arr xs) => some xs
    | _ => findListKey fs ks

/-- Function `parse_json` (src/generate_pdf.py lines 69-81), applied to the value
returned by `json.load`: a list yields its elements; a dict yields the first
wrapper key's list value, else the dict itself as sole record; any other
shape yields no records. -/
def parse_json : Json → List Json
  | .arr xs => xs
  | .obj fs =>
    match findListKey fs wrapKeys with
    | some xs => xs
    | none => [.obj fs]
  | _ => []

/-- The identifier field names probed by `extract_invoice_id`, in source
order. -/
def idKeys : List String := ["invoice_id", "invoiceid", "id", "invoiceId", "invoice"]

/-- The loop of `extract_invoice_id`: value of the first key of `ks` present
in `fs`. -/
def firstKeyVal (fs : List (String × Json)) : List String → Option Json
  | [] => none
  | k :: ks =>
    match lookupKey fs k with
    | some v => some v
    | none => firstKeyVal fs ks

/-- Function `extract_invoice_id` (lines 94-99): first identifier field present in a
dict-shaped record, coerced with `str()`; `None` otherwise. -/
def extract_invoice_id (item : Json) : Option String :=
  match item with
  | .obj fs => (firstKeyVal fs idKeys).map pyStr
  | _ => none

/-- Truthiness of the extracted identifier (`if inv_id`): present and
non-empty. -/
def truthyId : Option String → Bool
  | some s => !s.isEmpty
  | none => false

/-- Python dict assignment `d[k] = v` on an insertion-ordered association
list: an existing key keeps its position and is rebound; a new key is
appended. -/
def pyDictSet {α : Type} (d : List (String × α)) (k : String) (v : α) :
    List (String × α) :=
  if d.any (fun p => p.1 == k) then
    d.map (fun p => if p.1 == k then (k, v) else p)
  else
    d ++ [(k, v)]

/-- The description keys probed for a synthetic label, in source order. -/
def descKeys : List String := ["product", "name", "title"]

/-- The chain `item.get("product") or item.get("name") or item.get("title")`:
the first present-and-truthy value among the description keys. -/
def descValue (fs : List (String × Json)) : Option Json :=
  ((descKeys.filterMap (lookupKey fs)).filter pyTruthy).head?

/-- The synthetic key built for a record without a truthy identifier
(lines 110-116): the 1-based position `idx`, extended by an em-dash and the
description when one is truthy. -/
def synthLabel (idx : Nat) (item : Json) : String :=
  match item with
  | .obj fs =>
    match descValue fs with
    | some d => toString idx ++ " — " ++ pyStr d
    | none => toString idx
  | _ => toString idx

/-- The loop body of `get_invoices_map` (lines 104-117), with `i` the 0-based
enumeration counter and `acc` the dict built so far. -/
def invMapGo (acc : List (String × Json)) (i : Nat) : List Json → List (String × Json)
  | [] => acc
  | item :: rest =>
    match extract_invoice_id item with
    | some s =>
      if s.isEmpty then
        invMapGo (pyDictSet acc (synthLabel (i + 1) item) item) (i + 1) rest
      else if acc.any (fun p => p.1 == s) then
        invMapGo acc (i + 1) rest
      else
        invMapGo (acc ++ [(s, item)]) (i + 1) rest
    | none => invMapGo (pyDictSet acc (synthLabel (i + 1) item) item) (i + 1) rest

/-- Function `get_invoices_map` (lines 102-118): identifier → record dict. -/
def get_invoices_map (data : List Json) : List (String × Json) :=
  invMapGo [] 0 data

/-- Python `str.isalnum`, modelled on code points in ASCII and the Cyrillic
block U+0400–U+04FF (where U+0482–U+0489 are signs and combining marks, not
alphanumeric); code points outside these modelled ranges map to `false`. -/
def pyIsAlnum (c : Char) : Bool :=
  decide ((48 ≤ c.toNat ∧ c.toNat ≤ 57) ∨ (65 ≤ c.toNat ∧ c.toNat ≤ 90) ∨
    (97 ≤ c.toNat ∧ c.toNat ≤ 122) ∨
    (0x400 ≤ c.toNat ∧ c.toNat ≤ 0x4FF ∧ ¬(0x482 ≤ c.toNat ∧ c.toNat ≤ 0x489)))

/-- The membership test `c in "-_"` (code points 45 and 95). -/
def inDashUnderscore (c : Char) : Bool :=
  decide (c.toNat = 45 ∨ c.toNat = 95)

/-- One character of the sanitisation on line 280:
`c if c.isalnum() or c in "-_" else "_"`. -/
def safeChar (c : Char) : Char :=
  if pyIsAlnum c || inDashUnderscore c then c else '_'

/-- The sanitised `safe_id` (line 280): keep alphanumerics, `-` and `_`, replace every
other character by `_`. -/
def safeId (invoiceId : String) : String :=
  String.mk (invoiceId.data.map safeChar)

/-- The `output_filename` (line 281), `invoice_` + `safe_id` + `.pdf`. -/
def outputFilename (invoiceId : String) : String :=
  "invoice_" ++ safeId invoiceId ++ ".pdf"

/-- Whitespace stripped by Python's `str.strip()` / `int()`, restricted to
the ASCII whitespace characters. -/
def pyWhitespace (c : Char) : Bool :=
  c == ' ' || c == '\t' || c == '\n' || c == '\r' || c.toNat == 11 || c.toNat == 12

/-- Python `str.strip()` (ASCII-whitespace restriction of the model). -/
def pyStrip (s : String) : String :=
  String.mk (((s.data.dropWhile pyWhitespace).reverse.dropWhile pyWhitespace).reverse)

/-- Digit run of an integer literal after its first digit: digits, with
single underscores allowed between digits (Python `int` grammar). -/
def digitsTail : List Char → Nat → Option Nat
  | [], acc => some acc
  | c :: rest, acc =>
    if c.isDigit then digitsTail rest (acc * 10 + (c.toNat - 48))
    else if c == '_' then
      match rest with
      | d :: rest2 =>
        if d.isDigit then digitsTail rest2 (acc * 10 + (d.toNat - 48)) else none
      | [] => none
    else none

/-- A nonempty underscore-grouped digit string, as accepted by Python `int`. -/
def digitsVal : List Char → Option Nat
  | [] => none
  | c :: rest => if c.isDigit then digitsTail rest (c.toNat - 48) else none

/-- Python `int(s)` on text: strip whitespace, optional sign, decimal digits
with single underscores between them; `none` models `ValueError`.  Restricted
to ASCII digits (Python also accepts other Unicode decimal digits). -/
def pyInt (s : String) : Option Int :=
  match (pyStrip s).data with
  | '-' :: rest => (digitsVal rest).map (fun n => -(n : Int))
  | '+' :: rest => (digitsVal rest).map (fun n => (n : Int))
  | cs => (digitsVal cs).map (fun n => (n : Int))

/-- The `while True` input loop of `select_from_list` (lines 171-181) over the
remaining console input lines: `some (some i, rest)` returns 0-based index
`i`, `some (none, rest)` is the abort sentinel (input `0`), `none` means the
input lines ran out with the loop still re-prompting. -/
def selectLoop (n : Nat) : List String → Option (Option Nat × List String)
  | [] => none
  | x :: rest =>
    match pyInt (pyStrip x) with
    | some m =>
      if m = 0 then some (none, rest)
      else if 1 ≤ m ∧ m ≤ (n : Int) then some (some (m - 1).toNat, rest)
      else selectLoop n rest
    | none => selectLoop n rest

/-- Function `select_from_list` (lines 162-181): immediate abort sentinel on an empty
item list (no input consumed), otherwise the numeric input loop. -/
def select_from_list (items : List String) (inputs : List String) :
    Option (Option Nat × List String) :=
  if items.isEmpty then some (none, inputs) else selectLoop items.length inputs

/-- A value of the template context `template_data` built in `main`
(lines 266-277): a copied record field, the injected identifier text, or the
auxiliary `(key, value)` pair list. -/
inductive TValue where
  | js (j : Json)
  | text (s : String)
  | pairs (l : List (String × Json))

/-- Python `d.setdefault(k, v)`: insert only when the key is absent. -/
def pySetdefault {α : Type} (d : List (String × α)) (k : String) (v : α) :
    List (String × α) :=
  if d.any (fun p => p.1 == k) then d else d ++ [(k, v)]

/-- Template-context construction of `main` (lines 266-277): copy a
dict-shaped record's fields (a non-dict record is wrapped under `"data"`),
`setdefault` the chosen identifier under `"invoice_id"`, then for dict-shaped
records bind the field pair list under `"_invoice_items"`. -/
def buildTemplateData (invoiceData : Json) (invoiceId : String) :
    List (String × TValue) :=
  let base := match invoiceData with
    | .obj fs => fs.map (fun p => (p.1, TValue.js p.2))
    | j => [("data", TValue.js j)]
  let withId := pySetdefault base "invoice_id" (TValue.text invoiceId)
  match invoiceData with
  | .obj fs => pyDictSet withId "_invoice_items" (TValue.pairs fs)
  | _ => withId

/-- Lexicographic comparison of character lists by code point, the order
Python uses to compare strings. -/
def charListLe : List Char → List Char → Bool
  | [], _ => true
  | _ :: _, [] => false
  | c :: cs, d :: ds =>
    if c.toNat < d.toNat then true
    else if d.toNat < c.toNat then false
    else charListLe cs ds

/-- Python `a <= b` on strings: lexicographic by code point. -/
def strLeb (a b : String) : Bool := charListLe a.data b.data

/-- Relation form of `strLeb`, used as the sort order of `sorted(...)`. -/
def keyLe (a b : String) : Prop := strLeb a b = true

instance : DecidableRel keyLe := fun a b => instDecidableEqBool (strLeb a b) true

/-- The menu list `sorted(invoices_map.keys())` (line 253): Python's stable ascending sort
of the dict's keys in insertion order, modelled with insertion sort under the
lexicographic (code-point) order on strings. -/
def sortKeys (m : List (String × Json)) : List String :=
  List.insertionSort keyLe (m.map (fun p => p.1))

/-- The environment `main` runs against: the discovered data files and
templates (name lists) and the outcomes of the external loader and renderer.
`load f` models `load_data` on file `f` (`Except.error` = raised exception);
`render t d o` models `render_pdf` on template `t`, context `d` and output
path `o`. -/
structure MainEnv where
  dataFiles : List String
  templates : List String
  load : String → Except String (List Json)
  render : String → List (String × TValue) → String → Except String Unit

/-- Stage of `main` from the render step on (lines 279-291): exit 0 on success
(`open_pdf` failures are caught inside `open_pdf`), exit 1 on a render
error. -/
def mainRender (env : MainEnv) (templateFile : String) (m : List (String × Json))
    (invoiceId : String) : Option Nat :=
  let invoiceData := (lookupKey m invoiceId).getD Json.null
  match env.render templateFile (buildTemplateData invoiceData invoiceId)
      (outputFilename invoiceId) with
  | .ok _ => some 0
  | .error _ => some 1

/-- Stage of `main` from the identifier menu on (lines 253-291): select from the
sorted identifiers; abort sentinel exits 0; a chosen index resolves against
the sorted key list. -/
def mainChooseId (env : MainEnv) (templateFile : String)
    (m : List (String × Json)) (inputs : List String) : Option Nat :=
  let ids := sortKeys m
  match select_from_list ids inputs with
  | none => none
  | some (none, _) => some 0
  | some (some ii, _) => mainRender env templateFile m (ids.getD ii "")

/-- Stage of `main` from the empty-data guard on (lines 243-291): empty parsed data
and an empty identifier map each exit 1. -/
def mainIndexed (env : MainEnv) (templateFile : String) (data : List Json)
    (inputs : List String) : Option Nat :=
  if data.isEmpty then some 1
  else
    let m := get_invoices_map data
    if m.isEmpty then some 1 else mainChooseId env templateFile m inputs

/-- Stage of `main` from the load step on (lines 236-291): a load exception exits 1. -/
def mainLoaded (env : MainEnv) (templateFile : String) (dataFile : String)
    (inputs : List String) : Option Nat :=
  match env.load dataFile with
  | .error _ => some 1
  | .ok data => mainIndexed env templateFile data inputs

/-- Function `main` (lines 184-291): discovery guards, then the data-file and template
menus (abort sentinel exits 0, exhausted input is `none`), then load, index,
identifier menu and render.  The console input lines are consumed in
sequence across the menus. -/
def mainRun (env : MainEnv) (inputs : List String) : Option Nat :=
  if env.dataFiles.isEmpty then some 1
  else if env.templates.isEmpty then some 1
  else
    match select_from_list env.dataFiles inputs with
    | none => none
    | some (none, _) => some 0
    | some (some di, rest1) =>
      match select_from_list env.templates rest1 with
      | none => none
      | some (none, _) => some 0
      | some (some ti, rest2) =>
        mainLoaded env (env.templates.getD ti "") (env.dataFiles.getD di "") rest2

/-! ### Helper lemmas -/

/-- Whether `fs` has key `k` bound to a list value (`key in data and
isinstance(data[key], list)`). -/
def hasListVal (fs : List (String × Json)) (k : String) : Bool :=
  match lookupKey fs k with
  | some (.arr _) => true
  | _ => false

theorem findListKey_cons_hit {fs : List (String × Json)} {k : String}
    {ks : List String} {xs : List Json} (h : lookupKey fs k = some (Json.arr xs)) :
    findListKey fs (k :: ks) = some xs := by
  simp [findListKey, h]

theorem findListKey_cons_skip {fs : List (String × Json)} {k : String}
    {ks : List String} (h : hasListVal fs k = false) :
    findListKey fs (k :: ks) = findListKey fs ks := by
  unfold hasListVal at h
  cases hl : lookupKey fs k with
  | none => simp [findListKey, hl]
  | some v =>
    rw [hl] at h
    cases v <;> simp_all [findListKey, hl]

/-- C1: for every JSON input, `parse_json` yields: the elements of a
top-level list; for a top-level mapping, the list bound to the first of
`invoices`, `data`, `records`, `items` whose value is a list; the mapping
itself as the sole record when no such key matches; and the empty sequence
for any scalar top-level shape. -/
theorem parse_json_record_rule :
    (∀ xs : List Json, parse_json (Json.arr xs) = xs) ∧
    (∀ fs xs, lookupKey fs "invoices" = some (Json.arr xs) →
      parse_json (Json.obj fs) = xs) ∧
    (∀ fs xs, hasListVal fs "invoices" = false →
      lookupKey fs "data" = some (Json.arr xs) → parse_json (Json.obj fs) = xs) ∧
    (∀ fs xs, hasListVal fs "invoices" = false → hasListVal fs "data" = false →
      lookupKey fs "records" = some (Json.arr xs) → parse_json (Json.obj fs) = xs) ∧
    (∀ fs xs, hasListVal fs "invoices" = false → hasListVal fs "data" = false →
      hasListVal fs "records" = false →
      lookupKey fs "items" = some (Json.arr xs) → parse_json (Json.obj fs) = xs) ∧
    (∀ fs, hasListVal fs "invoices" = false → hasListVal fs "data" = false →
      hasListVal fs "records" = false → hasListVal fs "items" = false →
      parse_json (Json.obj fs) = [Json.obj fs]) ∧
    (parse_json Json.null = []) ∧
    (∀ b, parse_json (Json.bool b) = []) ∧
    (∀ n, parse_json (Json.num n) = []) ∧
    (∀ s, parse_json (Json.str s) = []) := by
  refine ⟨fun xs => rfl, ?_, ?_, ?_, ?_, ?_, rfl, fun b => rfl, fun n => rfl, fun s => rfl⟩
  · intro fs xs h
    have hf : findListKey fs wrapKeys = some xs := by
      rw [wrapKeys]; exact findListKey_cons_hit h
    simp [parse_json, hf]
  · intro fs xs h1 h
    have hf : findListKey fs wrapKeys = some xs := by
      rw [wrapKeys, findListKey_cons_skip h1]; exact findListKey_cons_hit h
    simp [parse_json, hf]
  · intro fs xs h1 h2 h
    have hf : findListKey fs wrapKeys = some xs := by
      rw [wrapKeys, findListKey_cons_skip h1, findListKey_cons_skip h2]
      exact findListKey_cons_hit h
    simp [parse_json, hf]
  · intro fs xs h1 h2 h3 h
    have hf : findListKey fs wrapKeys = some xs := by
      rw [wrapKeys, findListKey_cons_skip h1, findListKey_cons_skip h2,
        findListKey_cons_skip h3]
      exact findListKey_cons_hit h
    simp [parse_json, hf]
  · intro fs h1 h2 h3 h4
    have hf : findListKey fs wrapKeys = none := by
      rw [wrapKeys, findListKey_cons_skip h1, findListKey_cons_skip h2,
        findListKey_cons_skip h3, findListKey_cons_skip h4]
      rfl
    simp [parse_json, hf]

/-- Witness for C1: a wrapped list under `invoices` wins over `data`; a
present non-list `invoices` key is skipped in favour of `data`; a mapping
matching no wrapper key is the sole record. -/
theorem parse_json_record_rule_witness :
    parse_json (Json.obj [("invoices", Json.arr [Json.num 1]), ("data", Json.arr [Json.num 2])])
      = [Json.num 1] ∧
    parse_json (Json.obj [("invoices", Json.num 7), ("data", Json.arr [Json.num 2])])
      = [Json.num 2] ∧
    parse_json (Json.obj [("x", Json.num 9)]) = [Json.obj [("x", Json.num 9)]] :=
  ⟨parse_json_record_rule.2.1 _ _ rfl,
   parse_json_record_rule.2.2.1 _ _ rfl rfl,
   parse_json_record_rule.2.2.2.2.2.1 _ rfl rfl rfl rfl⟩

/-- C3 counterexample: the Cyrillic letter `Я` is outside `[A-Za-z0-9-_]`,
so the claim requires it to be replaced by `_`, but Python's `str.isalnum`
accepts it and the code keeps it in the filename. -/
theorem output_filename_nonascii_kept :
    outputFilename "Я" = "invoice_Я.pdf" ∧ outputFilename "Я" ≠ "invoice__.pdf" := by
  exact ⟨by decide, by decide⟩

/-- The character class `[A-Za-z0-9-_]` named by the spec's sanitisation
sentence (spec-side definition for comparison with `safeChar`). -/
def specKeepAscii (c : Char) : Bool :=
  decide ((65 ≤ c.toNat ∧ c.toNat ≤ 90) ∨ (97 ≤ c.toNat ∧ c.toNat ≤ 122) ∨
    (48 ≤ c.toNat ∧ c.toNat ≤ 57) ∨ c.toNat = 45 ∨ c.toNat = 95)

/-- C3 (amended): for every identifier made of ASCII characters, the output
filename is `invoice_` followed by the identifier with every character
outside `[A-Za-z0-9-_]` replaced by `_`, then `.pdf`; characters that are
alphanumeric in the Unicode sense (such as Cyrillic letters) are kept rather
than replaced, so the original rule holds only on ASCII identifiers. -/
theorem output_filename_ascii_rule (s : String) (h : ∀ c ∈ s.data, c.toNat < 128) :
    outputFilename s =
      "invoice_" ++ String.mk (s.data.map (fun c => if specKeepAscii c then c else '_'))
        ++ ".pdf" := by
  unfold outputFilename safeId
  have hmap : s.data.map safeChar = s.data.map (fun c => if specKeepAscii c then c else '_') := by
    apply List.map_congr_left
    intro c hc
    have hlt : c.toNat < 128 := h c hc
    have heq : (pyIsAlnum c || inDashUnderscore c) = specKeepAscii c := by
      rw [Bool.eq_iff_iff]
      simp only [pyIsAlnum, inDashUnderscore, specKeepAscii, Bool.or_eq_true,
        decide_eq_true_eq]
      omega
    simp only [safeChar, heq]
  rw [hmap]

/-- Witness for C3 (amended): the identifier `A/B:C` is ASCII and maps to
`invoice_A_B_C.pdf`. -/
theorem output_filename_ascii_rule_witness :
    outputFilename "A/B:C" = "invoice_A_B_C.pdf" := by
  rw [output_filename_ascii_rule "A/B:C" (by decide)]
  decide

theorem firstKeyVal_cons_hit {fs : List (String × Json)} {k : String}
    {ks : List String} {v : Json} (h : lookupKey fs k = some v) :
    firstKeyVal fs (k :: ks) = some v := by
  simp [firstKeyVal, h]

theorem firstKeyVal_cons_skip {fs : List (String × Json)} {k : String}
    {ks : List String} (h : lookupKey fs k = none) :
    firstKeyVal fs (k :: ks) = firstKeyVal fs ks := by
  simp [firstKeyVal, h]

/-- C4 counterexample: a record whose `invoice_id` field is the empty string
has a present identifier coerced to `""`, yet `get_invoices_map` does not
insert it under `""` — the `if inv_id` truthiness test sends it down the
synthetic-key path, producing the key `"1"` instead. -/
theorem build_index_empty_id_not_inserted :
    extract_invoice_id (Json.obj [("invoice_id", Json.str "")]) = some "" ∧
    get_invoices_map [Json.obj [("invoice_id", Json.str "")]]
      = [("1", Json.obj [("invoice_id", Json.str "")])] ∧
    lookupKey (get_invoices_map [Json.obj [("invoice_id", Json.str "")]]) "" = none :=
  ⟨rfl, rfl, rfl⟩

/-- C4 (amended): `extract_invoice_id` probes a mapping-shaped record's
fields in the fixed order `invoice_id`, `invoiceid`, `id`, `invoiceId`,
`invoice` and returns the first present value coerced to text (absent if
none is present or the record is not a mapping); and every record whose
identifier is present and NON-EMPTY and not already used as a key is
inserted under that identifier — an identifier coercing to the empty string
is treated as absent and takes the synthetic-key path instead. -/
theorem extract_id_priority_and_insert :
    (∀ fs v, lookupKey fs "invoice_id" = some v →
      extract_invoice_id (Json.obj fs) = some (pyStr v)) ∧
    (∀ fs v, lookupKey fs "invoice_id" = none → lookupKey fs "invoiceid" = some v →
      extract_invoice_id (Json.obj fs) = some (pyStr v)) ∧
    (∀ fs v, lookupKey fs "invoice_id" = none → lookupKey fs "invoiceid" = none →
      lookupKey fs "id" = some v → extract_invoice_id (Json.obj fs) = some (pyStr v)) ∧
    (∀ fs v, lookupKey fs "invoice_id" = none → lookupKey fs "invoiceid" = none →
      lookupKey fs "id" = none → lookupKey fs "invoiceId" = some v →
      extract_invoice_id (Json.obj fs) = some (pyStr v)) ∧
    (∀ fs v, lookupKey fs "invoice_id" = none → lookupKey fs "invoiceid" = none →
      lookupKey fs "id" = none → lookupKey fs "invoiceId" = none →
      lookupKey fs "invoice" = some v →
      extract_invoice_id (Json.obj fs) = some (pyStr v)) ∧
    (∀ fs, lookupKey fs "invoice_id" = none → lookupKey fs "invoiceid" = none →
      lookupKey fs "id" = none → lookupKey fs "invoiceId" = none →
      lookupKey fs "invoice" = none → extract_invoice_id (Json.obj fs) = none) ∧
    (extract_invoice_id Json.null = none) ∧
    (∀ b, extract_invoice_id (Json.bool b) = none) ∧
    (∀ n, extract_invoice_id (Json.num n) = none) ∧
    (∀ s, extract_invoice_id (Json.str s) = none) ∧
    (∀ xs, extract_invoice_id (Json.arr xs) = none) ∧
    (∀ acc i item rest s, extract_invoice_id item = some s → s ≠ "" →
      acc.any (fun p => p.1 == s) = false →
      invMapGo acc i (item :: rest) = invMapGo (acc ++ [(s, item)]) (i + 1) rest) := by
  refine ⟨?_, ?_, ?_, ?_, ?_, ?_, rfl, fun b => rfl, fun n => rfl, fun s => rfl,
    fun xs => rfl, ?_⟩
  · intro fs v h
    simp [extract_invoice_id, idKeys, firstKeyVal_cons_hit h]
  · intro fs v h1 h
    simp [extract_invoice_id, idKeys, firstKeyVal_cons_skip h1, firstKeyVal_cons_hit h]
  · intro fs v h1 h2 h
    simp [extract_invoice_id, idKeys, firstKeyVal_cons_skip h1, firstKeyVal_cons_skip h2,
      firstKeyVal_cons_hit h]
  · intro fs v h1 h2 h3 h
    simp [extract_invoice_id, idKeys, firstKeyVal_cons_skip h1, firstKeyVal_cons_skip h2,
      firstKeyVal_cons_skip h3, firstKeyVal_cons_hit h]
  · intro fs v h1 h2 h3 h4 h
    simp [extract_invoice_id, idKeys, firstKeyVal_cons_skip h1, firstKeyVal_cons_skip h2,
      firstKeyVal_cons_skip h3, firstKeyVal_cons_skip h4, firstKeyVal_cons_hit h]
  · intro fs h1 h2 h3 h4 h5
    simp [extract_invoice_id, idKeys, firstKeyVal, h1, h2, h3, h4, h5]
  · intro acc i item rest s h hne hany
    have hE : s.isEmpty = false := by
      cases hb : s.isEmpty
      · rfl
      · exact absurd ((String.isEmpty_iff s).mp hb) hne
    simp only [invMapGo, h, hE, hany, Bool.false_eq_true, if_false]

/-- Witness for C4 (amended): `id` wins over `invoice` when `invoice_id` and
`invoiceid` are absent, and a record with the fresh non-empty identifier
`X1` is inserted under `X1`. -/
theorem extract_id_priority_and_insert_witness :
    extract_invoice_id (Json.obj [("invoice", Json.str "a"), ("id", Json.num 5)])
      = some "5" ∧
    invMapGo [] 0 [Json.obj [("invoice_id", Json.str "X1")]]
      = invMapGo [("X1", Json.obj [("invoice_id", Json.str "X1")])] 1 [] :=
  ⟨extract_id_priority_and_insert.2.2.1 [("invoice", Json.str "a"), ("id", Json.num 5)]
     (Json.num 5) rfl rfl rfl,
   extract_id_priority_and_insert.2.2.2.2.2.2.2.2.2.2.2 [] 0
     (Json.obj [("invoice_id", Json.str "X1")]) [] "X1" rfl (by decide) rfl⟩

/-- Whether the description key `k` contributes nothing to a synthetic
label: absent, or present with a falsy value. -/
def falsyAt (fs : List (String × Json)) (k : String) : Bool :=
  match lookupKey fs k with
  | some v => !pyTruthy v
  | none => true

theorem descValue_skip {fs : List (String × Json)} {k : String} {ks : List String}
    (h : falsyAt fs k = true) :
    ((( k :: ks).filterMap (lookupKey fs)).filter pyTruthy).head? =
      ((ks.filterMap (lookupKey fs)).filter pyTruthy).head? := by
  unfold falsyAt at h
  cases hl : lookupKey fs k with
  | none => simp [hl]
  | some v =>
    rw [hl] at h
    simp only [Bool.not_eq_true'] at h
    simp [hl, List.filter_cons, h]

theorem descValue_hit {fs : List (String × Json)} {k : String} {ks : List String}
    {v : Json} (h : lookupKey fs k = some v) (ht : pyTruthy v = true) :
    (((k :: ks).filterMap (lookupKey fs)).filter pyTruthy).head? = some v := by
  simp [h, List.filter_cons, ht]

/-- C5: a record without an identifier at 1-based position `i` is inserted
under the synthetic key `"{i}"` when it exposes no truthy `product`, `name`
or `title` field, and under `"{i} — {description}"` otherwise, where the
description is the first truthy value among `product`, `name`, `title` in
that priority order; e.g. records `[{"name": "Widget"}, {}]` yield the keys
`"1 — Widget"` and `"2"`. -/
theorem build_index_synthetic_keys :
    (∀ acc i item rest, extract_invoice_id item = none →
      invMapGo acc i (item :: rest)
        = invMapGo (pyDictSet acc (synthLabel (i + 1) item) item) (i + 1) rest) ∧
    (∀ i fs v, lookupKey fs "product" = some v → pyTruthy v = true →
      synthLabel i (Json.obj fs) = toString i ++ " — " ++ pyStr v) ∧
    (∀ i fs v, falsyAt fs "product" = true → lookupKey fs "name" = some v →
      pyTruthy v = true →
      synthLabel i (Json.obj fs) = toString i ++ " — " ++ pyStr v) ∧
    (∀ i fs v, falsyAt fs "product" = true → falsyAt fs "name" = true →
      lookupKey fs "title" = some v → pyTruthy v = true →
      synthLabel i (Json.obj fs) = toString i ++ " — " ++ pyStr v) ∧
    (∀ i fs, falsyAt fs "product" = true → falsyAt fs "name" = true →
      falsyAt fs "title" = true → synthLabel i (Json.obj fs) = toString i) ∧
    (∀ i, synthLabel i Json.null = toString i) ∧
    (∀ i b, synthLabel i (Json.bool b) = toString i) ∧
    (∀ i n, synthLabel i (Json.num n) = toString i) ∧
    (∀ i s, synthLabel i (Json.str s) = toString i) ∧
    (∀ i xs, synthLabel i (Json.arr xs) = toString i) ∧
    (get_invoices_map [Json.obj [("name", Json.str "Widget")], Json.obj []]
      = [("1 — Widget", Json.obj [("name", Json.str "Widget")]), ("2", Json.obj [])]) := by
  refine ⟨?_, ?_, ?_, ?_, ?_, fun i => rfl, fun i b => rfl, fun i n => rfl,
    fun i s => rfl, fun i xs => rfl, rfl⟩
  · intro acc i item rest h
    simp only [invMapGo, h]
  · intro i fs v h ht
    have hd : descValue fs = some v := by
      unfold descValue descKeys
      exact descValue_hit h ht
    simp [synthLabel, hd]
  · intro i fs v h1 h ht
    have hd : descValue fs = some v := by
      unfold descValue descKeys
      rw [descValue_skip h1]
      exact descValue_hit h ht
    simp [synthLabel, hd]
  · intro i fs v h1 h2 h ht
    have hd : descValue fs = some v := by
      unfold descValue descKeys
      rw [descValue_skip h1, descValue_skip h2]
      exact descValue_hit h ht
    simp [synthLabel, hd]
  · intro i fs h1 h2 h3
    have hd : descValue fs = none := by
      unfold descValue descKeys
      rw [descValue_skip h1, descValue_skip h2, descValue_skip h3]
      rfl
    simp [synthLabel, hd]

/-- Witness for C5: the second conjunct at a concrete truthy `name` field,
and the synthetic-path step on an identifier-less record. -/
theorem build_index_synthetic_keys_witness :
    synthLabel 1 (Json.obj [("name", Json.str "Widget")]) = "1 — Widget" ∧
    invMapGo [] 1 [Json.obj []]
      = invMapGo (pyDictSet [] (synthLabel 2 (Json.obj [])) (Json.obj [])) 2 [] :=
  ⟨build_index_synthetic_keys.2.2.1 1 [("name", Json.str "Widget")]
     (Json.str "Widget") rfl rfl rfl,
   build_index_synthetic_keys.1 [] 1 (Json.obj []) [] rfl⟩

theorem lookupKey_cons {α : Type} (p : String × α) (ps : List (String × α)) (X : String) :
    lookupKey (p :: ps) X = if p.1 = X then some p.2 else lookupKey ps X := by
  by_cases h : p.1 = X <;> simp [lookupKey, List.find?_cons, h]

theorem lookupKey_append {α : Type} (d e : List (String × α)) (X : String) :
    lookupKey (d ++ e) X = (lookupKey d X).or (lookupKey e X) := by
  cases h : List.find? (fun p => p.1 == X) d <;>
    simp [lookupKey, List.find?_append, h]

theorem anyKey_false_iff {α : Type} {d : List (String × α)} {X : String} :
    (d.any (fun p => p.1 == X) = false) ↔ lookupKey d X = none := by
  simp [lookupKey, List.any_eq_false, List.find?_eq_none]

theorem lookupKey_mapRebind {α : Type} {d : List (String × α)} {k X : String} {v : α}
    (h : k ≠ X) :
    lookupKey (d.map (fun p => if p.1 == k then (k, v) else p)) X = lookupKey d X := by
  induction d with
  | nil => rfl
  | cons p ps ih =>
    simp only [List.map_cons]
    rw [lookupKey_cons, lookupKey_cons]
    by_cases hp : p.1 = k
    · have hf : (if p.1 == k then (k, v) else p) = (k, v) := by simp [hp]
      rw [hf]
      rw [if_neg h, if_neg (by rw [hp]; exact h)]
      exact ih
    · have hf : (if p.1 == k then (k, v) else p) = p := by simp [hp]
      rw [hf]
      by_cases hx : p.1 = X
      · rw [if_pos hx, if_pos hx]
      · rw [if_neg hx, if_neg hx]; exact ih

theorem pyDictSet_lookup_ne {α : Type} {d : List (String × α)} {k X : String} {v : α}
    (h : k ≠ X) : lookupKey (pyDictSet d k v) X = lookupKey d X := by
  unfold pyDictSet
  split
  · exact lookupKey_mapRebind h
  · rw [lookupKey_append]
    have he : lookupKey [(k, v)] X = none := by
      rw [lookupKey_cons]
      simp [h, lookupKey]
    rw [he]
    cases lookupKey d X <;> rfl

theorem invMapGo_lookup_pres (data : List Json) :
    ∀ (acc : List (String × Json)) (i : Nat) (X : String) (v : Json),
    lookupKey acc X = some v →
    (∀ p ∈ data.enumFrom i, truthyId (extract_invoice_id p.2) = false →
      synthLabel (p.1 + 1) p.2 ≠ X) →
    lookupKey (invMapGo acc i data) X = some v := by
  induction data with
  | nil =>
    intro acc i X v hv _
    simpa [invMapGo] using hv
  | cons item rest ih =>
    intro acc i X v hv hsyn
    have hsynrest : ∀ p ∈ rest.enumFrom (i + 1),
        truthyId (extract_invoice_id p.2) = false → synthLabel (p.1 + 1) p.2 ≠ X :=
      fun p hp => hsyn p (by rw [List.enumFrom_cons]; exact List.mem_cons_of_mem _ hp)
    have hsynhead : truthyId (extract_invoice_id item) = false →
        synthLabel (i + 1) item ≠ X :=
      hsyn (i, item) (by rw [List.enumFrom_cons]; exact List.mem_cons_self _ _)
    cases hE : extract_invoice_id item with
    | none =>
      simp only [invMapGo, hE]
      have hk : synthLabel (i + 1) item ≠ X := hsynhead (by simp [hE, truthyId])
      exact ih _ _ _ _ (by rw [pyDictSet_lookup_ne hk]; exact hv) hsynrest
    | some s =>
      simp only [invMapGo, hE]
      by_cases hs : s.isEmpty = true
      · rw [if_pos hs]
        have hk : synthLabel (i + 1) item ≠ X :=
          hsynhead (by simp [hE, truthyId, hs])
        exact ih _ _ _ _ (by rw [pyDictSet_lookup_ne hk]; exact hv) hsynrest
      · rw [if_neg hs]
        by_cases ha : acc.any (fun p => p.1 == s) = true
        · rw [if_pos ha]
          exact ih _ _ _ _ hv hsynrest
        · rw [if_neg ha]
          have hsX : s ≠ X := by
            intro hEq
            subst hEq
            rw [anyKey_false_iff.mp (Bool.not_eq_true _ ▸ ha : acc.any (fun p => p.1 == s) = false)] at hv
            exact Option.noConfusion hv
          refine ih _ _ _ _ ?_ hsynrest
          rw [lookupKey_append, hv]
          rfl

theorem invMapGo_lookup_find (data : List Json) :
    ∀ (acc : List (String × Json)) (i : Nat) (X : String), X ≠ "" →
    lookupKey acc X = none →
    (∀ p ∈ data.enumFrom i, truthyId (extract_invoice_id p.2) = false →
      synthLabel (p.1 + 1) p.2 ≠ X) →
    lookupKey (invMapGo acc i data) X
      = data.find? (fun r => extract_invoice_id r == some X) := by
  induction data with
  | nil =>
    intro acc i X _ hacc _
    simpa [invMapGo, List.find?] using hacc
  | cons item rest ih =>
    intro acc i X hX hacc hsyn
    have hsynrest : ∀ p ∈ rest.enumFrom (i + 1),
        truthyId (extract_invoice_id p.2) = false → synthLabel (p.1 + 1) p.2 ≠ X :=
      fun p hp => hsyn p (by rw [List.enumFrom_cons]; exact List.mem_cons_of_mem _ hp)
    have hsynhead : truthyId (extract_invoice_id item) = false →
        synthLabel (i + 1) item ≠ X :=
      hsyn (i, item) (by rw [List.enumFrom_cons]; exact List.mem_cons_self _ _)
    cases hE : extract_invoice_id item with
    | none =>
      simp only [invMapGo, hE]
      rw [List.find?_cons_of_neg _ (by simp [hE])]
      have hk : synthLabel (i + 1) item ≠ X := hsynhead (by simp [hE, truthyId])
      exact ih _ _ _ hX (by rw [pyDictSet_lookup_ne hk]; exact hacc) hsynrest
    | some s =>
      simp only [invMapGo, hE]
      by_cases hs : s.isEmpty = true
      · rw [if_pos hs]
        have hse : s = "" := (String.isEmpty_iff s).mp hs
        rw [List.find?_cons_of_neg _ (by simp [hE, hse]; exact fun h => hX h.symm)]
        have hk : synthLabel (i + 1) item ≠ X :=
          hsynhead (by simp [hE, truthyId, hs])
        exact ih _ _ _ hX (by rw [pyDictSet_lookup_ne hk]; exact hacc) hsynrest
      · rw [if_neg hs]
        by_cases hsX : s = X
        · subst hsX
          have ha : acc.any (fun p => p.1 == s) = false := anyKey_false_iff.mpr hacc
          rw [if_neg (by rw [ha]; exact Bool.false_ne_true)]
          rw [List.find?_cons_of_pos _ (by simp [hE])]
          refine invMapGo_lookup_pres rest _ _ _ _ ?_ hsynrest
          rw [lookupKey_append, hacc, lookupKey_cons]
          simp
        · rw [List.find?_cons_of_neg _ (by simp [hE, hsX])]
          by_cases ha : acc.any (fun p => p.1 == s) = true
          · rw [if_pos ha]
            exact ih _ _ _ hX hacc hsynrest
          · rw [if_neg ha]
            refine ih _ _ _ hX ?_ hsynrest
            rw [lookupKey_append, hacc, lookupKey_cons]
            simp [hsX, lookupKey]

theorem pyDictSet_keys_nodup {α : Type} {d : List (String × α)} {k : String} {v : α}
    (h : (d.map (fun p => p.1)).Nodup) :
    ((pyDictSet d k v).map (fun p => p.1)).Nodup := by
  unfold pyDictSet
  by_cases ha : d.any (fun p => p.1 == k) = true
  · rw [if_pos ha]
    have hkeys : ((d.map (fun p => if p.1 == k then (k, v) else p)).map (fun p => p.1))
        = d.map (fun p => p.1) := by
      rw [List.map_map]
      apply List.map_congr_left
      intro p _
      by_cases hp1 : p.1 = k <;> simp [hp1]
    rw [hkeys]
    exact h
  · rw [if_neg ha]
    have hk : k ∉ d.map (fun p => p.1) := by
      intro hmem
      apply ha
      rcases List.mem_map.mp hmem with ⟨p, hp, hpk⟩
      exact List.any_eq_true.mpr ⟨p, hp, by simp [hpk]⟩
    simp [List.nodup_append, h, hk]

theorem invMapGo_keys_nodup (data : List Json) :
    ∀ (acc : List (String × Json)) (i : Nat), ((acc.map (fun p => p.1)).Nodup) →
    ((invMapGo acc i data).map (fun p => p.1)).Nodup := by
  induction data with
  | nil => intro acc i h; simpa [invMapGo] using h
  | cons item rest ih =>
    intro acc i h
    cases hE : extract_invoice_id item with
    | none =>
      simp only [invMapGo, hE]
      exact ih _ _ (pyDictSet_keys_nodup h)
    | some s =>
      simp only [invMapGo, hE]
      by_cases hs : s.isEmpty = true
      · rw [if_pos hs]
        exact ih _ _ (pyDictSet_keys_nodup h)
      · rw [if_neg hs]
        by_cases ha : acc.any (fun p => p.1 == s) = true
        · rw [if_pos ha]
          exact ih _ _ h
        · rw [if_neg ha]
          refine ih _ _ ?_
          have hk : s ∉ acc.map (fun p => p.1) := by
            intro hmem
            apply ha
            rcases List.mem_map.mp hmem with ⟨p, hp, hpk⟩
            exact List.any_eq_true.mpr ⟨p, hp, by simp [hpk]⟩
          simp [List.nodup_append, h, hk]

/-- C2 counterexample: with records `[{"invoice_id": "2"}, {}]`, the second,
identifier-less record is at 1-based position 2 and its synthetic key `"2"`
overwrites the entry of the first record, whose extracted identifier is
`"2"` — so the index does not map `"2"` to the first record with that
identifier. -/
theorem build_index_first_wins_fails :
    extract_invoice_id (Json.obj [("invoice_id", Json.str "2")]) = some "2" ∧
    lookupKey (get_invoices_map [Json.obj [("invoice_id", Json.str "2")], Json.obj []]) "2"
      = some (Json.obj []) ∧
    Json.obj [] ≠ Json.obj [("invoice_id", Json.str "2")] :=
  ⟨rfl, rfl, by simp⟩

/-- C2 (amended): for every record sequence and every natural identifier `X`
that is non-empty and differs from every synthetic label generated for the
sequence's identifier-less records, the index maps `X` to the first record
whose extracted identifier is `X` (and holds no entry for `X` when no record
has it), so later records with identifier `X` are silently dropped from the
map while remaining in the parsed sequence; the map's keys are always unique
within a run.  Without the two provisos the first-record rule fails: an
identifier-less record whose synthetic label equals `X` overwrites or
pre-empts the entry for `X`, and an identifier coercing to the empty string
is never used as a key. -/
theorem build_index_first_wins (data : List Json) (X : String) (hX : X ≠ "")
    (hsyn : ∀ p ∈ data.enum, truthyId (extract_invoice_id p.2) = false →
      synthLabel (p.1 + 1) p.2 ≠ X) :
    ((get_invoices_map data).map (fun p => p.1)).Nodup ∧
    lookupKey (get_invoices_map data) X
      = data.find? (fun r => extract_invoice_id r == some X) :=
  ⟨invMapGo_keys_nodup data [] 0 (by simp),
   invMapGo_lookup_find data [] 0 X hX rfl hsyn⟩

/-- Witness for C2 (amended): two records share the identifier `X1`; the map
holds exactly the first and its keys are unique. -/
theorem build_index_first_wins_witness :
    ((get_invoices_map [Json.obj [("invoice_id", Json.str "X1"), ("total", Json.num 1)],
        Json.obj [("invoice_id", Json.str "X1"), ("total", Json.num 2)]]).map
      (fun p => p.1)).Nodup ∧
    lookupKey (get_invoices_map [Json.obj [("invoice_id", Json.str "X1"), ("total", Json.num 1)],
        Json.obj [("invoice_id", Json.str "X1"), ("total", Json.num 2)]]) "X1"
      = some (Json.obj [("invoice_id", Json.str "X1"), ("total", Json.num 1)]) := by
  have h := build_index_first_wins
    [Json.obj [("invoice_id", Json.str "X1"), ("total", Json.num 1)],
     Json.obj [("invoice_id", Json.str "X1"), ("total", Json.num 2)]] "X1"
    (by decide) (by decide)
  exact ⟨h.1, by rw [h.2]; rfl⟩

/-- C6: `select_from_list` returns the abort sentinel immediately, consuming
no input, when the item list is empty; otherwise it loops over the input
lines, returning the 0-based index for an entered number in
`[1, length items]`, the abort sentinel for `0`, and re-prompting (neither
returning nor crashing) on every non-numeric or out-of-range line; with the
input exhausted it is still waiting (`none`). -/
theorem select_from_list_rule :
    (∀ inputs, select_from_list [] inputs = some (none, inputs)) ∧
    (∀ (items : List String) x rest, items ≠ [] → pyInt (pyStrip x) = some 0 →
      select_from_list items (x :: rest) = some (none, rest)) ∧
    (∀ (items : List String) x rest (m : Int), items ≠ [] →
      pyInt (pyStrip x) = some m → 1 ≤ m → m ≤ (items.length : Int) →
      select_from_list items (x :: rest) = some (some (m - 1).toNat, rest)) ∧
    (∀ (items : List String) x rest, items ≠ [] → pyInt (pyStrip x) = none →
      select_from_list items (x :: rest) = select_from_list items rest) ∧
    (∀ (items : List String) x rest (m : Int), items ≠ [] →
      pyInt (pyStrip x) = some m → m ≠ 0 → ¬(1 ≤ m ∧ m ≤ (items.length : Int)) →
      select_from_list items (x :: rest) = select_from_list items rest) ∧
    (∀ items : List String, items ≠ [] → select_from_list items [] = none) := by
  have hne : ∀ items : List String, items ≠ [] → items.isEmpty = false := by
    intro items h
    cases items with
    | nil => exact absurd rfl h
    | cons a as => rfl
  refine ⟨fun inputs => rfl, ?_, ?_, ?_, ?_, ?_⟩
  · intro items x rest h hp
    simp [select_from_list, hne items h, selectLoop, hp]
  · intro items x rest m h hp h1 h2
    have hm0 : ¬(m = 0) := by omega
    simp [select_from_list, hne items h, selectLoop, hp, hm0, h1, h2]
  · intro items x rest h hp
    simp [select_from_list, hne items h, selectLoop, hp]
  · intro items x rest m h hp hm0 hrange
    simp [select_from_list, hne items h, selectLoop, hp, hm0, hrange]
  · intro items h
    simp [select_from_list, hne items h, selectLoop]

/-- Witness for C6: the empty menu aborts without consuming input; `0`
aborts; `2` selects index 1; a non-numeric line and an out-of-range line
re-prompt; exhausted input is still waiting. -/
theorem select_from_list_rule_witness :
    select_from_list [] ["9"] = some (none, ["9"]) ∧
    select_from_list ["a", "b"] ["0", "x"] = some (none, ["x"]) ∧
    select_from_list ["a", "b"] ["2"] = some (some 1, []) ∧
    select_from_list ["a", "b"] ["abc", "2"] = select_from_list ["a", "b"] ["2"] ∧
    select_from_list ["a", "b"] ["7", "2"] = select_from_list ["a", "b"] ["2"] ∧
    select_from_list ["a", "b"] [] = none :=
  ⟨select_from_list_rule.1 ["9"],
   select_from_list_rule.2.1 ["a", "b"] "0" ["x"] (by decide) rfl,
   select_from_list_rule.2.2.1 ["a", "b"] "2" [] 2 (by decide) rfl (by decide) (by decide),
   select_from_list_rule.2.2.2.1 ["a", "b"] "abc" ["2"] (by decide) rfl,
   select_from_list_rule.2.2.2.2.1 ["a", "b"] "7" ["2"] 7 (by decide) rfl (by decide)
     (by decide),
   select_from_list_rule.2.2.2.2.2 ["a", "b"] (by decide)⟩

/-- C7: the entry point returns exit status 0 for a successful run and for
user cancellation (any selection menu answered with `0`), and exit status 1
for every guard failure (no data files, no templates, empty parsed data,
empty identifier map), load failure and render failure; the stage equations
link `mainRun` to the stage functions the later conjuncts speak about. -/
theorem main_exit_status :
    (∀ env inputs, env.dataFiles = [] → mainRun env inputs = some 1) ∧
    (∀ env inputs, env.dataFiles ≠ [] → env.templates = [] →
      mainRun env inputs = some 1) ∧
    (∀ env inputs r, env.dataFiles ≠ [] → env.templates ≠ [] →
      select_from_list env.dataFiles inputs = some (none, r) →
      mainRun env inputs = some 0) ∧
    (∀ env inputs di r1 r2, env.dataFiles ≠ [] → env.templates ≠ [] →
      select_from_list env.dataFiles inputs = some (some di, r1) →
      select_from_list env.templates r1 = some (none, r2) →
      mainRun env inputs = some 0) ∧
    (∀ env inputs di ti r1 r2, env.dataFiles ≠ [] → env.templates ≠ [] →
      select_from_list env.dataFiles inputs = some (some di, r1) →
      select_from_list env.templates r1 = some (some ti, r2) →
      mainRun env inputs
        = mainLoaded env (env.templates.getD ti "") (env.dataFiles.getD di "") r2) ∧
    (∀ env tf df rest e, env.load df = Except.error e →
      mainLoaded env tf df rest = some 1) ∧
    (∀ env tf df rest data, env.load df = Except.ok data →
      mainLoaded env tf df rest = mainIndexed env tf data rest) ∧
    (∀ env tf rest, mainIndexed env tf [] rest = some 1) ∧
    (∀ env tf data rest, get_invoices_map data = [] →
      mainIndexed env tf data rest = some 1) ∧
    (∀ env tf data rest, data ≠ [] → get_invoices_map data ≠ [] →
      mainIndexed env tf data rest = mainChooseId env tf (get_invoices_map data) rest) ∧
    (∀ env tf m rest r, select_from_list (sortKeys m) rest = some (none, r) →
      mainChooseId env tf m rest = some 0) ∧
    (∀ env tf m K e,
      env.render tf (buildTemplateData ((lookupKey m K).getD Json.null) K)
        (outputFilename K) = Except.error e →
      mainRender env tf m K = some 1) ∧
    (∀ env tf m K,
      env.render tf (buildTemplateData ((lookupKey m K).getD Json.null) K)
        (outputFilename K) = Except.ok () →
      mainRender env tf m K = some 0) := by
  have hne : ∀ {α : Type} (l : List α), l ≠ [] → l.isEmpty = false := by
    intro α l h
    cases l with
    | nil => exact absurd rfl h
    | cons a as => rfl
  refine ⟨?_, ?_, ?_, ?_, ?_, ?_, ?_, ?_, ?_, ?_, ?_, ?_, ?_⟩
  · intro env inputs h
    simp [mainRun, h]
  · intro env inputs hdf h
    simp [mainRun, hne env.dataFiles hdf, h]
  · intro env inputs r hdf ht hsel
    simp [mainRun, hne env.dataFiles hdf, hne env.templates ht, hsel]
  · intro env inputs di r1 r2 hdf ht hsel1 hsel2
    simp [mainRun, hne env.dataFiles hdf, hne env.templates ht, hsel1, hsel2]
  · intro env inputs di ti r1 r2 hdf ht hsel1 hsel2
    simp [mainRun, hne env.dataFiles hdf, hne env.templates ht, hsel1, hsel2]
  · intro env tf df rest e h
    simp [mainLoaded, h]
  · intro env tf df rest data h
    simp [mainLoaded, h]
  · intro env tf rest
    rfl
  · intro env tf data rest hm
    cases data with
    | nil => rfl
    | cons item ds => simp [mainIndexed, hm]
  · intro env tf data rest hd hm
    simp [mainIndexed, hne data hd, hne _ hm]
  · intro env tf m rest r hsel
    simp [mainChooseId, hsel]
  · intro env tf m K e h
    simp [mainRender, h]
  · intro env tf m K h
    simp [mainRender, h]

/-- Witness for C7: one concrete scenario per exit-status conjunct. -/
theorem main_exit_status_witness :
    mainRun ⟨[], ["t.html"], fun _ => Except.ok [], fun _ _ _ => Except.ok ()⟩ []
      = some 1 ∧
    mainRun ⟨["d.json"], [], fun _ => Except.ok [], fun _ _ _ => Except.ok ()⟩ []
      = some 1 ∧
    mainRun ⟨["d.json"], ["t.html"], fun _ => Except.ok [], fun _ _ _ => Except.ok ()⟩
      ["0"] = some 0 ∧
    mainRun ⟨["d.json"], ["t.html"], fun _ => Except.ok [], fun _ _ _ => Except.ok ()⟩
      ["1", "0"] = some 0 ∧
    mainRun ⟨["d.json"], ["t.html"], fun _ => Except.ok [Json.obj []],
        fun _ _ _ => Except.ok ()⟩ ["1", "1"]
      = mainLoaded ⟨["d.json"], ["t.html"], fun _ => Except.ok [Json.obj []],
          fun _ _ _ => Except.ok ()⟩ "t.html" "d.json" [] ∧
    mainLoaded ⟨["d.json"], ["t.html"], fun _ => Except.error "boom",
        fun _ _ _ => Except.ok ()⟩ "t.html" "d.json" [] = some 1 ∧
    mainLoaded ⟨["d.json"], ["t.html"], fun _ => Except.ok [Json.obj []],
        fun _ _ _ => Except.ok ()⟩ "t.html" "d.json" []
      = mainIndexed ⟨["d.json"], ["t.html"], fun _ => Except.ok [Json.obj []],
          fun _ _ _ => Except.ok ()⟩ "t.html" [Json.obj []] [] ∧
    mainIndexed ⟨["d.json"], ["t.html"], fun _ => Except.ok [],
        fun _ _ _ => Except.ok ()⟩ "t.html" [] [] = some 1 ∧
    mainIndexed ⟨["d.json"], ["t.html"], fun _ => Except.ok [],
        fun _ _ _ => Except.ok ()⟩ "t.html" [] ["0"] = some 1 ∧
    mainIndexed ⟨["d.json"], ["t.html"], fun _ => Except.ok [Json.obj []],
        fun _ _ _ => Except.ok ()⟩ "t.html" [Json.obj []] ["0"]
      = mainChooseId ⟨["d.json"], ["t.html"], fun _ => Except.ok [Json.obj []],
          fun _ _ _ => Except.ok ()⟩ "t.html" (get_invoices_map [Json.obj []]) ["0"] ∧
    mainChooseId ⟨["d.json"], ["t.html"], fun _ => Except.ok [Json.obj []],
        fun _ _ _ => Except.ok ()⟩ "t.html" [("1", Json.obj [])] ["0"] = some 0 ∧
    mainRender ⟨["d.json"], ["t.html"], fun _ => Except.ok [Json.obj []],
        fun _ _ _ => Except.error "bad"⟩ "t.html" [("1", Json.obj [])] "1" = some 1 ∧
    mainRender ⟨["d.json"], ["t.html"], fun _ => Except.ok [Json.obj []],
        fun _ _ _ => Except.ok ()⟩ "t.html" [("1", Json.obj [])] "1" = some 0 :=
  ⟨main_exit_status.1 _ [] rfl,
   main_exit_status.2.1 _ [] (by simp) rfl,
   main_exit_status.2.2.1 _ ["0"] [] (by simp) (by simp) rfl,
   main_exit_status.2.2.2.1 _ ["1", "0"] 0 ["0"] [] (by simp) (by simp) rfl rfl,
   main_exit_status.2.2.2.2.1 _ ["1", "1"] 0 0 ["1"] [] (by simp) (by simp) rfl rfl,
   main_exit_status.2.2.2.2.2.1 _ "t.html" "d.json" [] "boom" rfl,
   main_exit_status.2.2.2.2.2.2.1 _ "t.html" "d.json" [] [Json.obj []] rfl,
   main_exit_status.2.2.2.2.2.2.2.1 _ "t.html" [],
   main_exit_status.2.2.2.2.2.2.2.2.1 _ "t.html" [] ["0"] rfl,
   main_exit_status.2.2.2.2.2.2.2.2.2.1 _ "t.html" [Json.obj []] ["0"] (by simp)
     (by intro h
         rw [show get_invoices_map [Json.obj []] = [("1", Json.obj [])] from rfl] at h
         exact List.noConfusion h),
   main_exit_status.2.2.2.2.2.2.2.2.2.2.1 _ "t.html" [("1", Json.obj [])] ["0"] [] rfl,
   main_exit_status.2.2.2.2.2.2.2.2.2.2.2.1 _ "t.html" [("1", Json.obj [])] "1" "bad" rfl,
   main_exit_status.2.2.2.2.2.2.2.2.2.2.2.2 _ "t.html" [("1", Json.obj [])] "1" rfl⟩

theorem mapJs_any_key (fs : List (String × Json)) (k : String) :
    ((fs.map (fun p => (p.1, TValue.js p.2))).any (fun p => p.1 == k))
      = fs.any (fun p => p.1 == k) := by
  induction fs with
  | nil => rfl
  | cons p ps ih => simp [List.any_cons, ih]

theorem extract_none_no_id_field {fs : List (String × Json)}
    (h : extract_invoice_id (Json.obj fs) = none) :
    lookupKey fs "invoice_id" = none := by
  cases hl : lookupKey fs "invoice_id" with
  | none => rfl
  | some v =>
    exfalso
    simp [extract_invoice_id, idKeys, firstKeyVal_cons_hit hl] at h

/-- C9: whenever the identifier map binds key `K` to a record `r` that lacks
every recognised identifier field, the template context the orchestration
builds for choosing `K` carries exactly the text `K` under the identifier
key `invoice_id` — indexing and field injection never disagree on the
synthesised identifier. -/
theorem synthetic_id_roundtrip (data : List Json) (K : String) (r : Json)
    (hlk : lookupKey (get_invoices_map data) K = some r)
    (hid : extract_invoice_id r = none) :
    lookupKey (buildTemplateData r K) "invoice_id" = some (TValue.text K) := by
  cases r with
  | obj fs =>
    have hno : lookupKey fs "invoice_id" = none := extract_none_no_id_field hid
    have hb : (fs.map (fun p => (p.1, TValue.js p.2))).any
        (fun p => p.1 == "invoice_id") = false := by
      rw [mapJs_any_key]
      exact anyKey_false_iff.mpr hno
    have hbase : lookupKey (fs.map (fun p => (p.1, TValue.js p.2))) "invoice_id"
        = none := anyKey_false_iff.mp hb
    have hred : buildTemplateData (Json.obj fs) K
        = pyDictSet (pySetdefault (fs.map (fun p => (p.1, TValue.js p.2)))
            "invoice_id" (TValue.text K)) "_invoice_items" (TValue.pairs fs) := rfl
    have hset : pySetdefault (fs.map (fun p => (p.1, TValue.js p.2))) "invoice_id"
        (TValue.text K)
        = (fs.map (fun p => (p.1, TValue.js p.2))) ++ [("invoice_id", TValue.text K)] := by
      simp [pySetdefault, hb]
    rw [hred, hset, pyDictSet_lookup_ne (by decide), lookupKey_append, hbase,
      lookupKey_cons]
    simp
  | null => rfl
  | bool b => rfl
  | num n => rfl
  | str s => rfl
  | arr xs => rfl

/-- Witness for C9: the identifier-less record `{}` is indexed under its
synthetic key `"1"`, and the template context built for it binds
`invoice_id` to `"1"`. -/
theorem synthetic_id_roundtrip_witness :
    lookupKey (get_invoices_map [Json.obj []]) "1" = some (Json.obj []) ∧
    lookupKey (buildTemplateData (Json.obj []) "1") "invoice_id"
      = some (TValue.text "1") :=
  ⟨rfl, synthetic_id_roundtrip [Json.obj []] "1" (Json.obj []) rfl rfl⟩

theorem charListLe_cons {c d : Char} {cs ds : List Char} :
    charListLe (c :: cs) (d :: ds) = true ↔
      c.toNat < d.toNat ∨ (c.toNat = d.toNat ∧ charListLe cs ds = true) := by
  simp only [charListLe]
  split_ifs with h1 h2
  · simp [h1]
  · simp
    omega
  · have h : c.toNat = d.toNat := by omega
    simp [h, Nat.lt_irrefl]

theorem charListLe_total : ∀ xs ys, charListLe xs ys = true ∨ charListLe ys xs = true := by
  intro xs
  induction xs with
  | nil => intro ys; left; rfl
  | cons c cs ih =>
    intro ys
    cases ys with
    | nil => right; rfl
    | cons d ds =>
      rw [charListLe_cons, charListLe_cons]
      rcases Nat.lt_trichotomy c.toNat d.toNat with h | h | h
      · exact Or.inl (Or.inl h)
      · rcases ih ds with h2 | h2
        · exact Or.inl (Or.inr ⟨h, h2⟩)
        · exact Or.inr (Or.inr ⟨h.symm, h2⟩)
      · exact Or.inr (Or.inl h)

theorem charListLe_trans : ∀ xs ys zs, charListLe xs ys = true →
    charListLe ys zs = true → charListLe xs zs = true := by
  intro xs
  induction xs with
  | nil => intro ys zs _ _; rfl
  | cons c cs ih =>
    intro ys zs h1 h2
    cases ys with
    | nil => simp [charListLe] at h1
    | cons d ds =>
      cases zs with
      | nil => simp [charListLe] at h2
      | cons e es =>
        rw [charListLe_cons] at h1 h2 ⊢
        rcases h1 with h1 | ⟨h1, h1t⟩ <;> rcases h2 with h2 | ⟨h2, h2t⟩
        · exact Or.inl (by omega)
        · exact Or.inl (by omega)
        · exact Or.inl (by omega)
        · exact Or.inr ⟨by omega, ih ds es h1t h2t⟩

instance : IsTotal String keyLe :=
  ⟨fun a b => charListLe_total a.data b.data⟩

instance : IsTrans String keyLe :=
  ⟨fun a b c => charListLe_trans a.data b.data c.data⟩

/-- C10: the final identifier menu presents the identifier map's keys in
lexicographically sorted order (Python's code-point string sort), a
permutation of — in general different from — the records' insertion order,
and the chosen 0-based index is resolved against that sorted list. -/
theorem invoice_menu_sorted (m : List (String × Json)) :
    List.Sorted keyLe (sortKeys m) ∧
    (sortKeys m).Perm (m.map (fun p => p.1)) ∧
    (∀ (env : MainEnv) (tf : String) (rest : List String) (ii : Nat)
        (r : List String),
      select_from_list (sortKeys m) rest = some (some ii, r) →
      mainChooseId env tf m rest = mainRender env tf m ((sortKeys m).getD ii "")) := by
  refine ⟨?_, ?_, ?_⟩
  · exact List.sorted_insertionSort keyLe (m.map (fun p => p.1))
  · exact List.perm_insertionSort keyLe (m.map (fun p => p.1))
  · intro env tf rest ii r hsel
    simp [mainChooseId, hsel]

/-- Witness for C10: for keys inserted as `b`, `a` the menu shows `a`, `b` —
sorted, a permutation of the insertion order but not equal to it — and
choosing entry 1 resolves to `a`, the first sorted key. -/
theorem invoice_menu_sorted_witness :
    sortKeys [("b", Json.null), ("a", Json.null)] = ["a", "b"] ∧
    List.Sorted keyLe (sortKeys [("b", Json.null), ("a", Json.null)]) ∧
    (sortKeys [("b", Json.null), ("a", Json.null)]).Perm ["b", "a"] ∧
    mainChooseId ⟨[], [], fun _ => Except.ok [], fun _ _ _ => Except.ok ()⟩ "t"
        [("b", Json.null), ("a", Json.null)] ["1"]
      = mainRender ⟨[], [], fun _ => Except.ok [], fun _ _ _ => Except.ok ()⟩ "t"
          [("b", Json.null), ("a", Json.null)] "a" := by
  have h := invoice_menu_sorted [("b", Json.null), ("a", Json.null)]
  exact ⟨rfl, h.1, h.2.1, h.2.2 _ "t" ["1"] 0 [] rfl⟩
